import Mathlib

/-!
# Verification of the Arbiter pool-monitoring core

Shallow embedding of the pool-state synchronization and fixed-point price
computation engine:

* `src/app/src/utils/mod.rs` — the Q64.96 fixed-point decoder `convert`;
* `src/crates/clairvoyance/src/uniswap.rs` — `Pool`, `Pool::new`,
  event application inside `monitor_pool`, `_update_pool`, and
  `compute_price`.

The Rust code performs its decimal arithmetic with `num_bigfloat::BigFloat`,
an arbitrary-precision decimal floating-point engine.  We model `BigFloat`
values as exact extended rationals (`BF`): a finite rational, signed
infinity, or NaN.  Finite arithmetic is exact, and division of a nonzero
finite value by zero yields a signed infinity rather than an error, which is
the engine's behaviour.  All integer widths are modelled as `ℕ`/`ℤ` with the
source's limb decomposition kept explicit.
-/

/-- Model of a `num_bigfloat::BigFloat` value: a finite exact rational,
positive or negative infinity, or NaN. -/
inductive BF where
  | finite (q : ℚ)
  | pinf
  | ninf
  | nan
  deriving DecidableEq

namespace BF

/-- Addition; finite addition is exact, NaN is absorbing, and opposite
infinities give NaN. -/
def add : BF → BF → BF
  | finite a, finite b => finite (a + b)
  | nan, _ => nan
  | _, nan => nan
  | pinf, ninf => nan
  | ninf, pinf => nan
  | pinf, _ => pinf
  | _, pinf => pinf
  | ninf, _ => ninf
  | _, ninf => ninf

/-- Multiplication; finite multiplication is exact, NaN is absorbing, and
zero times an infinity gives NaN. -/
def mul : BF → BF → BF
  | finite a, finite b => finite (a * b)
  | nan, _ => nan
  | _, nan => nan
  | pinf, pinf => pinf
  | pinf, ninf => ninf
  | ninf, pinf => ninf
  | ninf, ninf => pinf
  | pinf, finite b => if b = 0 then nan else if 0 < b then pinf else ninf
  | finite a, pinf => if a = 0 then nan else if 0 < a then pinf else ninf
  | ninf, finite b => if b = 0 then nan else if 0 < b then ninf else pinf
  | finite a, ninf => if a = 0 then nan else if 0 < a then ninf else pinf

/-- Division.  A nonzero finite value divided by zero yields a signed
infinity (the `BigFloat` engine's behaviour, not an error); `0 / 0` is NaN. -/
def div : BF → BF → BF
  | finite a, finite b =>
      if b = 0 then
        if a = 0 then nan else if 0 < a then pinf else ninf
      else finite (a / b)
  | nan, _ => nan
  | _, nan => nan
  | finite _, pinf => finite 0
  | finite _, ninf => finite 0
  | pinf, finite b => if 0 ≤ b then pinf else ninf
  | ninf, finite b => if 0 ≤ b then ninf else pinf
  | pinf, pinf => nan
  | pinf, ninf => nan
  | ninf, pinf => nan
  | ninf, ninf => nan

/-- Squaring: the source's `.pow(&BigFloat::from_i16(2))`. -/
def pow2 : BF → BF
  | finite a => finite (a * a)
  | pinf => pinf
  | ninf => pinf
  | nan => nan

/-- `true` exactly on finite values. -/
def isFinite : BF → Bool
  | finite _ => true
  | _ => false

end BF

/-- A power of ten with an integer (possibly negative) exponent: the
source's `BigFloat::from_i16(10).pow(&e)` where `e` comes from an integer
decimals difference; exact in the decimal engine. -/
def bfTenPow (z : ℤ) : BF := BF.finite ((10 : ℚ) ^ z)

/-- An `ethers::types::U256` given by its four 64-bit limbs,
least-significant first, exactly as the Rust `U256.0 : [u64; 4]`. -/
structure U256 where
  limb0 : ℕ
  limb1 : ℕ
  limb2 : ℕ
  limb3 : ℕ
  deriving DecidableEq

/-- The integer value of a `U256`: `limb0 + limb1·2^64 + limb2·2^128 +
limb3·2^192`. -/
def U256.val (v : U256) : ℕ :=
  v.limb0 + v.limb1 * 2 ^ 64 + v.limb2 * 2 ^ 128 + v.limb3 * 2 ^ 192

/-- `U256::zero()`. -/
def U256.zero : U256 := ⟨0, 0, 0, 0⟩

/-- The limbs fit in 64 bits, as they do for a real `[u64; 4]`. -/
def U256.Wf (v : U256) : Prop :=
  v.limb0 < 2 ^ 64 ∧ v.limb1 < 2 ^ 64 ∧ v.limb2 < 2 ^ 64 ∧ v.limb3 < 2 ^ 64

instance (v : U256) : Decidable v.Wf := by unfold U256.Wf; infer_instance

/-- `convert` from `src/app/src/utils/mod.rs` (the FixedPointDecoder):
reconstruct `most·2^192 + third·2^128 + second·2^64 + least` in decimal
arithmetic and divide by `2^96`. -/
def convert (q64_96 : U256) : BF :=
  let least_sig := q64_96.limb0
  let second_sig := q64_96.limb1
  let third_sig := q64_96.limb2
  let most_sig := q64_96.limb3
  BF.div
    (BF.add
      (BF.add
        (BF.add (BF.mul (BF.finite (most_sig : ℚ)) (BF.finite ((2 : ℚ) ^ (192 : ℕ))))
          (BF.mul (BF.finite (third_sig : ℚ)) (BF.finite ((2 : ℚ) ^ (128 : ℕ)))))
        (BF.mul (BF.finite (second_sig : ℚ)) (BF.finite ((2 : ℚ) ^ (64 : ℕ)))))
      (BF.finite (least_sig : ℚ)))
    (BF.finite ((2 : ℚ) ^ (96 : ℕ)))

/-- `utils::chain_tools::convert_q64_96`, the decoder called by
`compute_price`.  Modelled from the spec: `chain_tools` is not under `src/`;
§4.1 specifies a single FixedPointDecoder whose algorithm is exactly the
`convert` of `src/app/src/utils/mod.rs`, so the two are identified. -/
def convert_q64_96 (q64_96 : U256) : BF := convert q64_96

/-- A token as read from the registry: name, 20-byte address (modelled as a
natural number), and decimal precision (`u8`). -/
structure Token where
  name : String
  address : ℕ
  decimals : ℕ
  deriving DecidableEq

/-- `compute_price` from `src/crates/clairvoyance/src/uniswap.rs` lines
259–272: square the decoded sqrt price, then normalize by a power of ten of
the decimals difference, with orientation decided by whether the pool's
canonical `token_0` equals the caller's first token's address. -/
def compute_price (tokens : Token × Token) (sqrt_price_x96 : U256)
    (pool_token_0 : ℕ) : BF :=
  let diff_decimals : ℤ := (tokens.1.decimals : ℤ) - (tokens.2.decimals : ℤ)
  if pool_token_0 = tokens.1.address then
    BF.div (BF.pow2 (convert_q64_96 sqrt_price_x96)) (bfTenPow (-diff_decimals))
  else
    BF.div (BF.finite 1)
      (BF.div (BF.pow2 (convert_q64_96 sqrt_price_x96)) (bfTenPow diff_decimals))

/-- The error variants of `clairerror::ClairvoyanceError` used by
`uniswap.rs` (the enum's own file is not under `src/`; variants and payloads
are taken from the `use` list and the `panic!` sites that build them). -/
inductive ClairvoyanceError where
  | FeeTierDoesNotExist (bp : ℕ)
  | PoolDoesNotExist (token_0_name : String) (token_1_name : String) (bp : ℕ)
  | TokenDoesNotExist (token_name : String)
  deriving DecidableEq

/-- A swap event as carried by the stream: sender, recipient, signed amount
deltas, post-swap liquidity, tick, and sqrt price. -/
structure SwapEvent where
  sender : ℕ
  recipient : ℕ
  amount_0 : ℤ
  amount_1 : ℤ
  liquidity : ℕ
  tick : ℤ
  sqrt_price_x96 : U256
  deriving DecidableEq

/-- The `Pool` struct of `uniswap.rs`: identity fields (tokens, basis
points, address) plus mutable derived state (tick, liquidity, sqrt price).
The provider/factory/contract handles are external collaborator handles and
carry no state relevant to the claims. -/
structure Pool where
  token_0 : Token
  token_1 : Token
  bp : ℕ
  address : ℕ
  tick : ℤ
  liquidity : ℕ
  sqrt_price_x96 : U256
  deriving DecidableEq

namespace Pool

/-- `Pool::set_tick`. -/
def set_tick (p : Pool) (tick : ℤ) : Pool := { p with tick := tick }

/-- `Pool::set_liquidity`. -/
def set_liquidity (p : Pool) (liquidity : ℕ) : Pool :=
  { p with liquidity := liquidity }

/-- `Pool::set_sqrt_price_x96`. -/
def set_sqrt_price_x96 (p : Pool) (sqrt_price_x96 : U256) : Pool :=
  { p with sqrt_price_x96 := sqrt_price_x96 }

/-- The event-application step of `monitor_pool` (uniswap.rs lines
188–191): overwrite tick, liquidity and sqrt price with the event's carried
values. -/
def applyEvent (p : Pool) (e : SwapEvent) : Pool :=
  ((p.set_tick e.tick).set_liquidity e.liquidity).set_sqrt_price_x96
    e.sqrt_price_x96

/-- `Pool::_update_pool`: the one-shot refresh that overwrites liquidity,
tick and sqrt price with values read from the contract (`slot_0` returns the
sqrt price and the tick). -/
def update_pool (p : Pool) (slot0_sqrt : U256) (slot0_tick : ℤ)
    (liq : ℕ) : Pool :=
  ((p.set_liquidity liq).set_tick slot0_tick).set_sqrt_price_x96 slot0_sqrt

end Pool

/-- The all-zero sentinel address returned by the factory for a pool that
does not exist. -/
def zeroAddress : ℕ := 0

/-- A record of one call made to an external collaborator during
construction: the factory's `get_pool(token_0, token_1, fee)`. -/
inductive ExtCall where
  | getPool (token_0 : ℕ) (token_1 : ℕ) (fee : ℕ)
  deriving DecidableEq

/-- `Pool::new` (uniswap.rs lines 50–101).  The external factory is passed
in as a resolver function; the panics become `Except.error` values.  The
second component records every external call made, in order: the fee-tier
check happens before any call, so an invalid tier produces an empty trace.
`get_pool` receives `bp * 100` exactly as in the source. -/
def Pool.new (token_0 : Token) (token_1 : Token) (bp : ℕ)
    (resolve : ℕ → ℕ → ℕ → ℕ) :
    Except ClairvoyanceError Pool × List ExtCall :=
  if bp = 1 ∨ bp = 5 ∨ bp = 30 ∨ bp = 100 then
    let pool_address := resolve token_0.address token_1.address (bp * 100)
    let calls := [ExtCall.getPool token_0.address token_1.address (bp * 100)]
    if pool_address = zeroAddress then
      (.error (.PoolDoesNotExist token_0.name token_1.name bp), calls)
    else
      (.ok { token_0 := token_0, token_1 := token_1, bp := bp,
             address := pool_address, tick := 0, liquidity := 0,
             sqrt_price_x96 := U256.zero }, calls)
  else
    (.error (.FeeTierDoesNotExist bp), [])

/-! ## Helper lemmas -/

/-- The decoder computes exactly the value of the limbs divided by `2^96`. -/
theorem convert_eq (v : U256) :
    convert v = BF.finite ((v.val : ℚ) / 2 ^ 96) := by
  simp only [convert, BF.mul, BF.add, BF.div]
  rw [if_neg (by norm_num : ¬((2 : ℚ) ^ (96 : ℕ) = 0))]
  congr 1
  unfold U256.val
  push_cast
  ring

/-- Division of finite values by a nonzero finite value is exact. -/
theorem BF.div_finite_of_ne (a b : ℚ) (hb : b ≠ 0) :
    BF.div (.finite a) (.finite b) = .finite (a / b) := by
  simp only [BF.div]
  rw [if_neg hb]

/-- Division of a positive finite value by zero yields positive infinity. -/
theorem BF.div_finite_zero_of_pos (a : ℚ) (ha : 0 < a) :
    BF.div (.finite a) (.finite 0) = .pinf := by
  simp [BF.div, ha, ha.ne']

/-- Squaring a finite value is exact. -/
theorem BF.pow2_finite (a : ℚ) : BF.pow2 (.finite a) = .finite (a * a) := rfl

/-- Matching orientation: when the caller's first token is the pool's
`token_0`, `compute_price` divides the squared ratio by `10^(-diff)`,
i.e. multiplies it by `10^diff`. -/
theorem compute_price_matching (t0 t1 : Token) (v : U256) (pt0 : ℕ)
    (h : pt0 = t0.address) :
    compute_price (t0, t1) v pt0 =
      BF.finite (((v.val : ℚ) / 2 ^ 96) ^ 2 *
        10 ^ ((t0.decimals : ℤ) - (t1.decimals : ℤ))) := by
  unfold compute_price
  rw [if_pos h, convert_q64_96, convert_eq]
  rw [bfTenPow, BF.pow2_finite,
    BF.div_finite_of_ne _ _ (zpow_ne_zero _ (by norm_num : (10 : ℚ) ≠ 0))]
  congr 1
  rw [zpow_neg, div_eq_mul_inv, inv_inv]
  ring

/-- Reciprocal orientation: when the caller's first token is not the pool's
`token_0` and the sqrt price is nonzero, `compute_price` returns
`10^diff / P_raw`. -/
theorem compute_price_reciprocal (t0 t1 : Token) (v : U256) (pt0 : ℕ)
    (h : ¬pt0 = t0.address) (hv : v.val ≠ 0) :
    compute_price (t0, t1) v pt0 =
      BF.finite (10 ^ ((t0.decimals : ℤ) - (t1.decimals : ℤ)) /
        ((v.val : ℚ) / 2 ^ 96) ^ 2) := by
  have hr : ((v.val : ℚ) / 2 ^ 96) ≠ 0 :=
    div_ne_zero (by exact_mod_cast hv) (by norm_num)
  have hten : ((10 : ℚ) ^ ((t0.decimals : ℤ) - (t1.decimals : ℤ))) ≠ 0 :=
    zpow_ne_zero _ (by norm_num)
  unfold compute_price
  rw [if_neg h, convert_q64_96, convert_eq]
  rw [bfTenPow, BF.pow2_finite, BF.div_finite_of_ne _ _ hten,
    BF.div_finite_of_ne _ _ (div_ne_zero (mul_ne_zero hr hr) hten)]
  congr 1
  rw [one_div_div]
  ring

/-! ## Claims -/

/-- C3: for every 256-bit input given as four 64-bit limbs, the decoder is
total (returns a finite value, no error) and equals
`(limb0 + limb1·2^64 + limb2·2^128 + limb3·2^192) / 2^96`. -/
theorem convert_total_value (v : U256) (h : v.Wf) :
    convert v =
      BF.finite (((v.limb0 : ℚ) + (v.limb1 : ℚ) * 2 ^ 64 +
        (v.limb2 : ℚ) * 2 ^ 128 + (v.limb3 : ℚ) * 2 ^ 192) / 2 ^ 96) := by
  rw [convert_eq]
  congr 1
  unfold U256.val
  push_cast
  ring

/-- Witness for C3 at the concrete input with limbs (1, 2, 3, 4). -/
theorem convert_total_value_witness :
    U256.Wf ⟨1, 2, 3, 4⟩ ∧
      convert ⟨1, 2, 3, 4⟩ =
        BF.finite ((((1 : ℚ)) + (2 : ℚ) * 2 ^ 64 + (3 : ℚ) * 2 ^ 128 +
          (4 : ℚ) * 2 ^ 192) / 2 ^ 96) :=
  ⟨by decide, by
    have := convert_total_value ⟨1, 2, 3, 4⟩ (by decide)
    simpa using this⟩

/-- C8: multiplying the decoder's output by `2^96` gives back exactly the
integer value of the input (round-trip law; exact in the model, within the
engine's 40-digit precision in the implementation). -/
theorem convert_roundtrip (v : U256) (h : v.Wf) :
    BF.mul (convert v) (BF.finite ((2 : ℚ) ^ (96 : ℕ))) =
      BF.finite (v.val : ℚ) := by
  rw [convert_eq]
  simp only [BF.mul]
  congr 1
  field_simp

/-- Witness for C8 at the concrete input with limbs (5, 6, 7, 8). -/
theorem convert_roundtrip_witness :
    U256.Wf ⟨5, 6, 7, 8⟩ ∧
      BF.mul (convert ⟨5, 6, 7, 8⟩) (BF.finite ((2 : ℚ) ^ (96 : ℕ))) =
        BF.finite ((U256.val ⟨5, 6, 7, 8⟩ : ℚ)) :=
  ⟨by decide, convert_roundtrip ⟨5, 6, 7, 8⟩ (by decide)⟩

/-- Zero sqrt price in the matching orientation gives exactly zero. -/
theorem compute_price_zero_matching (t0 t1 : Token) (pt0 : ℕ)
    (h : pt0 = t0.address) :
    compute_price (t0, t1) U256.zero pt0 = BF.finite 0 := by
  rw [compute_price_matching t0 t1 U256.zero pt0 h]
  congr 1
  norm_num [U256.val, U256.zero]

/-- Zero sqrt price in the reciprocal orientation divides one by zero and
gives positive infinity. -/
theorem compute_price_zero_reciprocal (t0 t1 : Token) (pt0 : ℕ)
    (h : ¬pt0 = t0.address) :
    compute_price (t0, t1) U256.zero pt0 = BF.pinf := by
  have h0 : ((U256.val U256.zero : ℚ)) / 2 ^ 96 = 0 := by
    norm_num [U256.val, U256.zero]
  unfold compute_price
  rw [if_neg h, convert_q64_96, convert_eq, h0, BF.pow2_finite, bfTenPow,
    BF.div_finite_of_ne _ _ (zpow_ne_zero _ (by norm_num : (10 : ℚ) ≠ 0))]
  have h00 : (0 : ℚ) * 0 /
      (10 : ℚ) ^ ((t0.decimals : ℤ) - (t1.decimals : ℤ)) = 0 := by
    norm_num
  rw [h00]
  exact BF.div_finite_zero_of_pos 1 one_pos

/-- C1 counterexample: with token decimals 18 and 6 (decimals_diff = 12),
sqrt price `2^96` (decoded ratio 1, `P_raw = 1`) and the matching
orientation, the claimed value `P_raw / 10^decimals_diff = 1/10^12` is not
what `compute_price` returns (it returns `10^12`). -/
theorem compute_price_matching_claim_false :
    compute_price (⟨"ETH", 1, 18⟩, ⟨"USDC", 2, 6⟩) ⟨0, 2 ^ 32, 0, 0⟩ 1 ≠
      BF.finite ((1 : ℚ) / 10 ^ (12 : ℕ)) := by
  rw [compute_price_matching ⟨"ETH", 1, 18⟩ ⟨"USDC", 2, 6⟩ ⟨0, 2 ^ 32, 0, 0⟩ 1
    rfl]
  intro hc
  rw [BF.finite.injEq] at hc
  rw [show U256.val ⟨0, 2 ^ 32, 0, 0⟩ = 2 ^ 96 by norm_num [U256.val]] at hc
  norm_num at hc

/-- C1 (amended): in the matching orientation `compute_price` returns
`P_raw · 10^decimals_diff` (equivalently `P_raw / 10^(-decimals_diff)`), not
`P_raw / 10^decimals_diff`; in the reciprocal orientation, for a nonzero
sqrt price, it returns `10^decimals_diff / P_raw`, where
`P_raw = (value/2^96)^2` and `decimals_diff = decimals(token_0) -
decimals(token_1)`. -/
theorem compute_price_orientation (t0 t1 : Token) (v : U256) (pt0 : ℕ) :
    (pt0 = t0.address →
      compute_price (t0, t1) v pt0 =
        BF.finite (((v.val : ℚ) / 2 ^ 96) ^ 2 *
          10 ^ ((t0.decimals : ℤ) - (t1.decimals : ℤ)))) ∧
    (¬pt0 = t0.address → v.val ≠ 0 →
      compute_price (t0, t1) v pt0 =
        BF.finite (10 ^ ((t0.decimals : ℤ) - (t1.decimals : ℤ)) /
          ((v.val : ℚ) / 2 ^ 96) ^ 2)) :=
  ⟨fun h => compute_price_matching t0 t1 v pt0 h,
   fun h hv => compute_price_reciprocal t0 t1 v pt0 h hv⟩

/-- Witness for C1 (amended) in both orientations at sqrt price `2^96` with
decimals 18 and 6. -/
theorem compute_price_orientation_witness :
    compute_price (⟨"ETH", 1, 18⟩, ⟨"USDC", 2, 6⟩) ⟨0, 2 ^ 32, 0, 0⟩ 1 =
      BF.finite (((U256.val ⟨0, 2 ^ 32, 0, 0⟩ : ℚ) / 2 ^ 96) ^ 2 *
        10 ^ (((18 : ℕ) : ℤ) - ((6 : ℕ) : ℤ))) ∧
    compute_price (⟨"ETH", 1, 18⟩, ⟨"USDC", 2, 6⟩) ⟨0, 2 ^ 32, 0, 0⟩ 7 =
      BF.finite (10 ^ (((18 : ℕ) : ℤ) - ((6 : ℕ) : ℤ)) /
        ((U256.val ⟨0, 2 ^ 32, 0, 0⟩ : ℚ) / 2 ^ 96) ^ 2) :=
  ⟨(compute_price_orientation ⟨"ETH", 1, 18⟩ ⟨"USDC", 2, 6⟩
      ⟨0, 2 ^ 32, 0, 0⟩ 1).1 rfl,
   (compute_price_orientation ⟨"ETH", 1, 18⟩ ⟨"USDC", 2, 6⟩
      ⟨0, 2 ^ 32, 0, 0⟩ 7).2 (by decide) (by decide)⟩

/-- C2: with decimals 18 and 6, pool `token_0` equal to the 18-decimal
token, and sqrt price exactly `2^96` (ratio 1), the computed normalized
price is exactly `10^12`. -/
theorem compute_price_unit_ratio_18_6 :
    compute_price (⟨"ETH", 1, 18⟩, ⟨"USDC", 2, 6⟩) ⟨0, 2 ^ 32, 0, 0⟩ 1 =
      BF.finite ((10 : ℚ) ^ (12 : ℕ)) := by
  rw [compute_price_matching ⟨"ETH", 1, 18⟩ ⟨"USDC", 2, 6⟩ ⟨0, 2 ^ 32, 0, 0⟩ 1
    rfl]
  congr 1
  rw [show U256.val ⟨0, 2 ^ 32, 0, 0⟩ = 2 ^ 96 by norm_num [U256.val]]
  norm_num

/-- C5 evidence: at sqrt price zero in the reciprocal orientation the code
divides one by zero, yielding positive infinity (a non-finite value), not an
`UninitializedPool` error — no such error path exists in `compute_price`. -/
theorem compute_price_uninitialized_reciprocal :
    compute_price (⟨"ETH", 1, 18⟩, ⟨"USDC", 2, 6⟩) U256.zero 7 = BF.pinf ∧
      BF.isFinite BF.pinf = false :=
  ⟨compute_price_zero_reciprocal ⟨"ETH", 1, 18⟩ ⟨"USDC", 2, 6⟩ 7 (by decide),
   rfl⟩

/-- C10: `compute_price` is total; at a zero sqrt price the matching
orientation returns exactly zero and the reciprocal orientation performs an
unguarded division by zero yielding positive infinity, a non-finite value
rather than an error. -/
theorem compute_price_total_zero (t0 t1 : Token) (pt0 : ℕ) :
    (pt0 = t0.address →
      compute_price (t0, t1) U256.zero pt0 = BF.finite 0) ∧
    (¬pt0 = t0.address →
      compute_price (t0, t1) U256.zero pt0 = BF.pinf ∧
        BF.isFinite (compute_price (t0, t1) U256.zero pt0) = false) :=
  ⟨fun h => compute_price_zero_matching t0 t1 pt0 h,
   fun h => ⟨compute_price_zero_reciprocal t0 t1 pt0 h, by
     rw [compute_price_zero_reciprocal t0 t1 pt0 h]
     rfl⟩⟩

/-- Witness for C10 in both orientations. -/
theorem compute_price_total_zero_witness :
    compute_price (⟨"ETH", 1, 18⟩, ⟨"USDC", 2, 6⟩) U256.zero 1 =
      BF.finite 0 ∧
    compute_price (⟨"ETH", 1, 18⟩, ⟨"USDC", 2, 6⟩) U256.zero 7 = BF.pinf :=
  ⟨(compute_price_total_zero ⟨"ETH", 1, 18⟩ ⟨"USDC", 2, 6⟩ 1).1 rfl,
   ((compute_price_total_zero ⟨"ETH", 1, 18⟩ ⟨"USDC", 2, 6⟩ 7).2
     (by decide)).1⟩

/-- C4: event application unconditionally overwrites tick, liquidity and
sqrt price: after any sequence of events ending in `e`, the state's three
derived fields equal `e`'s carried fields, and immediately after each single
apply the fields read back equal that event's fields. -/
theorem applyEvent_overwrites (p : Pool) (es : List SwapEvent)
    (e : SwapEvent) :
    (((es ++ [e]).foldl Pool.applyEvent p).tick = e.tick ∧
      ((es ++ [e]).foldl Pool.applyEvent p).liquidity = e.liquidity ∧
      ((es ++ [e]).foldl Pool.applyEvent p).sqrt_price_x96 =
        e.sqrt_price_x96) ∧
    ((p.applyEvent e).tick = e.tick ∧
      (p.applyEvent e).liquidity = e.liquidity ∧
      (p.applyEvent e).sqrt_price_x96 = e.sqrt_price_x96) := by
  simp [Pool.applyEvent, Pool.set_tick, Pool.set_liquidity,
    Pool.set_sqrt_price_x96, List.foldl_append]

/-- C6: an invalid fee tier is rejected with `FeeTierDoesNotExist` before
any external call: the resolver call trace is empty. -/
theorem pool_new_invalid_fee_tier (t0 t1 : Token) (bp : ℕ)
    (resolve : ℕ → ℕ → ℕ → ℕ)
    (h : ¬(bp = 1 ∨ bp = 5 ∨ bp = 30 ∨ bp = 100)) :
    Pool.new t0 t1 bp resolve =
      (.error (.FeeTierDoesNotExist bp), ([] : List ExtCall)) := by
  unfold Pool.new
  rw [if_neg h]

/-- Witness for C6 at fee tier 7 with a resolver that would return a live
address (and is provably never consulted). -/
theorem pool_new_invalid_fee_tier_witness :
    Pool.new ⟨"ETH", 1, 18⟩ ⟨"USDC", 2, 6⟩ 7 (fun _ _ _ => 3) =
      (.error (.FeeTierDoesNotExist 7), ([] : List ExtCall)) :=
  pool_new_invalid_fee_tier ⟨"ETH", 1, 18⟩ ⟨"USDC", 2, 6⟩ 7 (fun _ _ _ => 3)
    (by decide)

/-- C7: when the factory resolves the pool address to the all-zero sentinel,
construction fails with `PoolDoesNotExist` carrying both token names and the
fee tier, and no `Pool` value is produced. -/
theorem pool_new_zero_address (t0 t1 : Token) (bp : ℕ)
    (resolve : ℕ → ℕ → ℕ → ℕ)
    (hbp : bp = 1 ∨ bp = 5 ∨ bp = 30 ∨ bp = 100)
    (hz : resolve t0.address t1.address (bp * 100) = zeroAddress) :
    (Pool.new t0 t1 bp resolve).1 =
      .error (.PoolDoesNotExist t0.name t1.name bp) := by
  unfold Pool.new
  rw [if_pos hbp, if_pos hz]

/-- Witness for C7 with a constant-zero resolver at fee tier 5. -/
theorem pool_new_zero_address_witness :
    (Pool.new ⟨"ETH", 1, 18⟩ ⟨"USDC", 2, 6⟩ 5 (fun _ _ _ => 0)).1 =
      .error (.PoolDoesNotExist "ETH" "USDC" 5) :=
  pool_new_zero_address ⟨"ETH", 1, 18⟩ ⟨"USDC", 2, 6⟩ 5 (fun _ _ _ => 0)
    (by decide) rfl

/-- C9: the mutating operations (event application and the one-shot
refresh) preserve all identity fields (tokens, fee tier, address) and set
the derived fields to exactly the values they are given, never arbitrary
ones. -/
theorem pool_identity_frame (p : Pool) (e : SwapEvent) (s : U256) (t : ℤ)
    (l : ℕ) :
    ((p.applyEvent e).token_0 = p.token_0 ∧
      (p.applyEvent e).token_1 = p.token_1 ∧
      (p.applyEvent e).bp = p.bp ∧
      (p.applyEvent e).address = p.address) ∧
    ((p.update_pool s t l).token_0 = p.token_0 ∧
      (p.update_pool s t l).token_1 = p.token_1 ∧
      (p.update_pool s t l).bp = p.bp ∧
      (p.update_pool s t l).address = p.address) ∧
    (p.applyEvent e =
      { p with tick := e.tick, liquidity := e.liquidity,
               sqrt_price_x96 := e.sqrt_price_x96 } ∧
      p.update_pool s t l =
        { p with tick := t, liquidity := l, sqrt_price_x96 := s }) := by
  simp [Pool.applyEvent, Pool.update_pool, Pool.set_tick, Pool.set_liquidity,
    Pool.set_sqrt_price_x96]
